import Mathlib

/-
  Verification of the DIRAC remote-storage adapter (snakemake/remote/DiracSE.py).

  The adapter shells out to DIRAC command-line tools and interprets their
  textual output.  We embed the pure decision logic of each operation:
  text output and filesystem facts become explicit parameters, the
  subprocess layer becomes a function from per-attempt outcomes to a
  result, and Python exceptions become explicit result constructors.
-/

namespace DiracSE

/-! ## Substring containment (Python's `x in s` on strings) -/

/-- Boolean substring test on character lists: Python's `needle in hay`. -/
def listContains (needle : List Char) : List Char → Bool
  | [] => needle.isPrefixOf []
  | c :: rest => needle.isPrefixOf (c :: rest) || listContains needle rest

/-- Boolean substring test on strings, mirroring Python's `in` operator. -/
def containsSub (needle hay : String) : Bool :=
  listContains needle.toList hay.toList

/-- Propositional form: the needle occurs as a contiguous substring of hay. -/
def hasSub (needle hay : String) : Prop :=
  needle.toList <:+: hay.toList

instance (needle hay : String) : Decidable (hasSub needle hay) :=
  List.decidableInfix needle.toList hay.toList

/-! ## Python `str.replace` (replaces every non-overlapping occurrence)

`RemoteObject._lfn` is `path.replace("LFN://", "")`: Python `str.replace`
scans left to right and replaces every non-overlapping occurrence of the
pattern, not only a leading one.  We model it on character lists with an
explicit fuel argument bounding the number of scanning steps. -/

def replaceChars (pat rep : List Char) : Nat → List Char → List Char
  | _, [] => []
  | 0, s => s
  | fuel + 1, c :: rest =>
    if !pat.isEmpty && pat.isPrefixOf (c :: rest) then
      rep ++ replaceChars pat rep fuel ((c :: rest).drop pat.length)
    else
      c :: replaceChars pat rep fuel rest

/-- Python `s.replace(pat, rep)` for a non-empty pattern. -/
def pyReplace (s pat rep : String) : String :=
  String.mk (replaceChars pat.toList rep.toList s.toList.length s.toList)

/-- Model of `RemoteObject._lfn`: `self.remote_file().replace("LFN://", "")`. -/
def lfnOf (remotePath : String) : String :=
  pyReplace remotePath "LFN://" ""

/-! ## Model of `RemoteObject.exists` -/

/-- Decision logic of `exists()`: `"Failed :" not in result`. -/
def existsResult (result : String) : Bool :=
  !(containsSub "Failed :" result)

/-! ## Command-line construction (`RemoteObject._dirac`, line 80)

`_cmd = [self.diracEnvWrapper] + [cmd] + list(args)` — the environment
wrapper string is prepended unconditionally, even when it is empty. -/

def buildCmd (wrapper cmd : String) (args : List String) : List String :=
  [wrapper] ++ [cmd] ++ args

/-! ## Model of the retry loop in `RemoteObject._dirac`

Each external attempt is modelled by its outcome: `Except.ok stdout` for a
zero exit with that decoded standard output, `Except.error stderr` for a
non-zero exit (`CalledProcessError`) carrying decoded standard error.  The
loop `for i in range(retry + 1)` runs `(retry + 1).toNat` iterations (the
Python `retry` may be any integer).  We track, besides the result, the
number of process invocations and the number of one-second sleeps taken.
A `none` result models the Python function falling off the end of the loop
and returning `None`. -/

inductive CmdOutcome where
  | ok (stdout : String)
  | workflowError (stderr : String)
  | calledProcessError (stderr : String)
  deriving DecidableEq, Repr

/-- One pass of the `for i in range(...)` loop body of `_dirac`:
`i` is the current loop index, the second argument the number of
iterations still available (current one included).  Returns
(result, invocations, seconds slept). -/
def diracLoop (attempts : Nat → Except String String) (rwe : Bool) :
    Nat → Nat → Option CmdOutcome × Nat × Nat
  | _, 0 => (none, 0, 0)
  | i, fuel + 1 =>
    match attempts i with
    | Except.ok s => (some (CmdOutcome.ok s), 1, 0)
    | Except.error e =>
      if fuel = 0 then
        (some (if rwe then CmdOutcome.workflowError e else CmdOutcome.calledProcessError e), 1, 0)
      else
        let r := diracLoop attempts rwe (i + 1) fuel
        (r.1, r.2.1 + 1, r.2.2 + 1)

/-- Model of `RemoteObject._dirac`: run up to `retry + 1` attempts starting
at index 0.  `rwe` is the `raise_workflow_error` flag. -/
def diracRun (attempts : Nat → Except String String) (rwe : Bool) (retry : Int) :
    Option CmdOutcome × Nat × Nat :=
  diracLoop attempts rwe 0 (retry + 1).toNat

/-! ## Model of `RemoteObject.download`

The decision logic after the fetch tool ran: `output` is the captured
stdout, `pathExists` the value of `os.path.exists(path)` after `os_sync()`. -/

inductive DownloadResult where
  | path (p : String)
  | noneResult
  | workflowError
  | assertionError
  deriving DecidableEq, Repr

def download (lfn path output : String) (pathExists : Bool) : DownloadResult :=
  if !(containsSub "Downloading file to" output) then DownloadResult.assertionError
  else if containsSub "Failed :" output then DownloadResult.workflowError
  else if containsSub "Successful :" output
      && containsSub (lfn ++ " : " ++ path) output
      && pathExists then DownloadResult.path path
  else DownloadResult.noneResult

/-! ## Model of `RemoteObject.upload` -/

inductive UploadResult where
  | ok (b : Bool)
  | assertionError
  deriving DecidableEq, Repr

def upload (output : String) : UploadResult :=
  if !(containsSub "Successful : " output) then UploadResult.assertionError
  else UploadResult.ok (containsSub "Successful : " output)

/-! ## Provider configuration, `host`, `list` and the upload command line -/

/-- Configuration stored by `RemoteProvider.__init__`: only the retry count
is kept by the provider itself (the other keyword arguments are forwarded
to the abstract base class). -/
structure RemoteProvider where
  retry : Int
  deriving DecidableEq, Repr

/-- Class attribute `RemoteObject.defaultSE = "CERN-USER"`: a constant of
the adapter class, independent of any provider configuration. -/
def defaultSE : String := "CERN-USER"

/-- State of one adapter instance: its provider and its remote path. -/
structure RemoteObjectState where
  provider : RemoteProvider
  remotePath : String
  deriving DecidableEq, Repr

/-- Model of `RemoteObject.host`: `return self.defaultSE`. -/
def host (_o : RemoteObjectState) : String :=
  defaultSE

/-- Arguments of the `dirac-dms-add-file` invocation inside `upload()`:
`self._lfn(), source, self.defaultSE`. -/
def uploadCmdArgs (lfn source : String) : List String :=
  [lfn, source, defaultSE]

/-- Python-level result of an adapter property or accessor. -/
inductive PyResult (α : Type) where
  | ok (val : α)
  | patternMatchError
  | valueError
  | notImplementedError
  deriving DecidableEq, Repr

/-- Model of the `list` property: `raise NotImplementedError()`. -/
def listFiles (_o : RemoteObjectState) : PyResult (List String) :=
  PyResult.notImplementedError

/-- Whether a `PyResult` is a normally returned value. -/
def PyResult.isOk {α : Type} : PyResult α → Bool
  | PyResult.ok _ => true
  | _ => false

/-! ## Metadata field extraction (`mtime_re` / `size_re`)

Both class patterns are multiline searches of the shape
`\s* <key> <payload> $` anchored at a line start; `re.search` returns the
match in the first line whose leading whitespace is followed by the key and
a payload acceptable to the rest of the pattern.  We model this by
splitting the text into lines at newline characters and returning the
extraction from the first line that matches. -/

def splitLines : List Char → List (List Char)
  | [] => [[]]
  | c :: rest =>
    if c = '\n' then [] :: splitLines rest
    else
      match splitLines rest with
      | [] => [[c]]
      | l :: ls => (c :: l) :: ls

/-- First successful extraction over a list of lines. -/
def searchLines {α : Type} (check : List Char → Option α) : List (List Char) → Option α
  | [] => none
  | l :: ls =>
    match check l with
    | some r => some r
    | none => searchLines check ls

/-- Match of one line against `\s* <key> <rest>` where `extract` accepts the
text following the key (and rejects it when the remainder of the regular
expression cannot match). -/
def lineMatch {α : Type} (key : List Char) (extract : List Char → Option α)
    (line : List Char) : Option α :=
  let t := line.dropWhile fun c => c.isWhitespace
  if key.isPrefixOf t then extract (t.drop key.length) else none

/-- Model of `<pattern>.search(text)` followed by `.group(1)` extraction. -/
def fieldSearch {α : Type} (key : List Char) (extract : List Char → Option α)
    (text : String) : Option α :=
  searchLines (lineMatch key extract) (splitLines text.toList)

/-- Group 1 of `mtime_re`, i.e. `(.+)$`: the non-empty remainder of the line. -/
def mtimeExtract (rest : List Char) : Option (List Char) :=
  if rest.isEmpty then none else some rest

/-- Group 1 of `size_re`, i.e. `([0-9]+)`: the maximal non-empty leading
digit run. -/
def sizeExtract (rest : List Char) : Option (List Char) :=
  let ds := rest.takeWhile fun c => c.isDigit
  if ds.isEmpty then none else some ds

/-- Numeric value of a digit string (most significant digit first). -/
def digitsVal (ds : List Char) : Nat :=
  ds.foldl (fun acc c => acc * 10 + (c.toNat - 48)) 0

/-! ## `datetime.strptime(mtime, "%Y-%m-%d %H:%M:%S")` and `.timestamp()`

The format directives are matched the way CPython compiles them to regular
expressions: `%Y` is exactly four digits; the other fields accept one or
two digits, preferring two when the two-digit value is in range.  A parse
failure is a `ValueError`.  The resulting naive datetime is turned into
epoch seconds by `.timestamp()` using the host timezone: we keep the UTC
offset of the host (in seconds) as an explicit parameter. -/

structure CivilTime where
  year : Nat
  month : Nat
  day : Nat
  hour : Nat
  minute : Nat
  second : Nat
  deriving DecidableEq, Repr

/-- Parse one or two leading digits whose value lies in `lo..hi`, two
digits preferred (CPython strptime alternation order). -/
def parseField (lo hi : Nat) : List Char → Option (Nat × List Char)
  | c1 :: c2 :: rest =>
    if c1.isDigit && c2.isDigit
        && decide (lo ≤ digitsVal [c1, c2]) && decide (digitsVal [c1, c2] ≤ hi) then
      some (digitsVal [c1, c2], rest)
    else if c1.isDigit && decide (lo ≤ digitsVal [c1]) && decide (digitsVal [c1] ≤ hi) then
      some (digitsVal [c1], c2 :: rest)
    else none
  | [c1] =>
    if c1.isDigit && decide (lo ≤ digitsVal [c1]) && decide (digitsVal [c1] ≤ hi) then
      some (digitsVal [c1], [])
    else none
  | [] => none

/-- Expect a literal character. -/
def parseLit (c : Char) : List Char → Option (List Char)
  | d :: rest => if d = c then some rest else none
  | [] => none

def isLeapYear (y : Nat) : Bool :=
  (y % 4 = 0 && y % 100 ≠ 0) || y % 400 = 0

def daysInMonth (y m : Nat) : Nat :=
  if m = 2 then (if isLeapYear y then 29 else 28)
  else if m = 4 || m = 6 || m = 9 || m = 11 then 30
  else 31

/-- Model of `datetime.strptime(s, "%Y-%m-%d %H:%M:%S")`; `none` is a
`ValueError` (format mismatch, unconverted data, or invalid calendar day). -/
def strptimeYmdHms (s : List Char) : Option CivilTime :=
  match s with
  | y1 :: y2 :: y3 :: y4 :: rest =>
    if y1.isDigit && y2.isDigit && y3.isDigit && y4.isDigit then
      let y := digitsVal [y1, y2, y3, y4]
      match parseLit '-' rest with
      | none => none
      | some r1 =>
        match parseField 1 12 r1 with
        | none => none
        | some (mo, r2) =>
          match parseLit '-' r2 with
          | none => none
          | some r3 =>
            match parseField 1 31 r3 with
            | none => none
            | some (d, r4) =>
              match parseLit ' ' r4 with
              | none => none
              | some r5 =>
                match parseField 0 23 r5 with
                | none => none
                | some (h, r6) =>
                  match parseLit ':' r6 with
                  | none => none
                  | some r7 =>
                    match parseField 0 59 r7 with
                    | none => none
                    | some (mi, r8) =>
                      match parseLit ':' r8 with
                      | none => none
                      | some r9 =>
                        match parseField 0 61 r9 with
                        | none => none
                        | some (sec, r10) =>
                          if r10.isEmpty && decide (d ≤ daysInMonth y mo) then
                            some (CivilTime.mk y mo d h mi sec)
                          else none
    else none
  | _ => none

/-- Days from 1970-01-01 to the given civil date (proleptic Gregorian). -/
def daysFromCivil (y : Int) (m d : Nat) : Int :=
  let ys : Int := if m ≤ 2 then y - 1 else y
  let era : Int := (if 0 ≤ ys then ys else ys - 399) / 400
  let yoe : Int := ys - era * 400
  let mp : Int := ((m : Int) + 9) % 12
  let doy : Int := (153 * mp + 2) / 5 + (d : Int) - 1
  let doe : Int := yoe * 365 + yoe / 4 - yoe / 100 + doy
  era * 146097 + doe - 719468

/-- Epoch seconds of a civil time read as UTC. -/
def epochUTC (t : CivilTime) : Int :=
  daysFromCivil (t.year : Int) t.month t.day * 86400
    + (t.hour : Int) * 3600 + (t.minute : Int) * 60 + (t.second : Int)

/-- Model of `RemoteObject.mtime` as a function of the metadata text.
`tz` is the host UTC offset in seconds applied by `datetime.timestamp()`;
`patternMatchError` models the `AttributeError` raised by `.group(1)` when
`search` returned `None`. -/
def mtimeModel (tz : Int) (stat : String) : PyResult Int :=
  match fieldSearch "ModificationDate : ".toList mtimeExtract stat with
  | none => PyResult.patternMatchError
  | some raw =>
    match strptimeYmdHms raw with
    | none => PyResult.valueError
    | some t => PyResult.ok (epochUTC t - tz)

/-- Model of `RemoteObject.size` as a function of the metadata text. -/
def sizeModel (stat : String) : PyResult Nat :=
  match fieldSearch "Size : ".toList sizeExtract stat with
  | none => PyResult.patternMatchError
  | some ds => PyResult.ok (digitsVal ds)

/-! ## Helper lemmas about substring containment -/

theorem listContains_iff_occurs (needle : List Char) :
    ∀ hay : List Char, listContains needle hay = true ↔ needle <:+: hay := by
  intro hay
  induction hay with
  | nil =>
    simp [listContains, List.infix_nil]
  | cons c rest ih =>
    simp only [listContains, Bool.or_eq_true, List.isPrefixOf_iff_prefix, ih]
    exact (List.infix_cons_iff).symm

theorem containsSub_iff (needle hay : String) :
    containsSub needle hay = true ↔ hasSub needle hay :=
  listContains_iff_occurs needle.toList hay.toList

theorem containsSub_false_iff (needle hay : String) :
    containsSub needle hay = false ↔ ¬ hasSub needle hay := by
  rw [← containsSub_iff]
  cases h : containsSub needle hay <;> simp [h]

/-! ## Helper lemmas about `replaceChars` -/

/-- When the pattern occurs nowhere in the text, `replaceChars` is the
identity, whatever the fuel. -/
theorem replaceChars_no_occurrence (pat rep : List Char) :
    ∀ fuel s, ¬ pat <:+: s → replaceChars pat rep fuel s = s := by
  intro fuel
  induction fuel with
  | zero =>
    intro s hs
    cases s <;> rfl
  | succ f ih =>
    intro s hs
    cases s with
    | nil => rfl
    | cons c rest =>
      have hpre : ¬ (pat.isPrefixOf (c :: rest) = true) := by
        rw [ List.isPrefixOf_iff_prefix]
        exact fun hp => hs hp.isInfix
      have hrest : ¬ pat <:+: rest := fun hr => hs (List.infix_cons hr)
      simp only [replaceChars]
      rw [if_neg (by simp [hpre]), ih rest hrest]

/-- When the text starts with the (non-empty) pattern, one replacement step
fires and scanning continues after the consumed pattern. -/
theorem replaceChars_leading_match (p : Char) (ps rep rest : List Char) (f : Nat) :
    replaceChars (p :: ps) rep (f + 1) ((p :: ps) ++ rest) =
      rep ++ replaceChars (p :: ps) rep f rest := by
  have hpre : (p :: ps).isPrefixOf (p :: (ps ++ rest)) = true := by
    rw [ List.isPrefixOf_iff_prefix, ← List.cons_append]
    exact List.prefix_append (p :: ps) rest
  have hdrop : List.drop (p :: ps).length (p :: (ps ++ rest)) = rest := by
    rw [← List.cons_append]
    exact List.drop_left (p :: ps) rest
  simp [List.cons_append, replaceChars, hpre, hdrop]

/-! ## Helper lemmas about line splitting and field search -/

theorem splitLines_cons : ∀ s : List Char, ∃ l ls, splitLines s = l :: ls := by
  intro s
  induction s with
  | nil => exact ⟨[], [], rfl⟩
  | cons c rest ih =>
    obtain ⟨l, ls, hls⟩ := ih
    by_cases h : c = '\n'
    · exact ⟨[], splitLines rest, by simp [splitLines, h]⟩
    · exact ⟨c :: l, ls, by simp [splitLines, h, hls]⟩

theorem splitLines_head_leads :
    ∀ (s l : List Char) (ls : List (List Char)), splitLines s = l :: ls → l <+: s := by
  intro s
  induction s with
  | nil =>
    intro l ls h
    simp only [splitLines] at h
    cases h
    exact List.nil_prefix
  | cons c rest ih =>
    intro l ls h
    by_cases hc : c = '\n'
    · simp only [splitLines, if_pos hc] at h
      cases h
      exact List.nil_prefix
    · obtain ⟨l0, ls0, h0⟩ := splitLines_cons rest
      simp only [splitLines, if_neg hc, h0, List.cons.injEq] at h
      obtain ⟨rfl, -⟩ := h
      exact List.cons_prefix_cons.mpr ⟨rfl, ih l0 ls0 h0⟩

theorem splitLines_mem_occurs :
    ∀ (s l : List Char), l ∈ splitLines s → l <:+: s := by
  intro s
  induction s with
  | nil =>
    intro l hl
    simp only [splitLines, List.mem_singleton] at hl
    subst hl
    exact List.nil_infix
  | cons c rest ih =>
    intro l hl
    by_cases hc : c = '\n'
    · simp only [splitLines, if_pos hc, List.mem_cons] at hl
      rcases hl with rfl | hl
      · exact List.nil_infix
      · exact List.infix_cons (ih l hl)
    · obtain ⟨l0, ls0, h0⟩ := splitLines_cons rest
      simp only [splitLines, if_neg hc, h0, List.mem_cons] at hl
      rcases hl with rfl | hl
      · exact (List.cons_prefix_cons.mpr ⟨rfl, splitLines_head_leads rest l0 ls0 h0⟩).isInfix
      · have hmem : l ∈ splitLines rest := by
          rw [h0]
          exact List.mem_cons_of_mem _ hl
        exact List.infix_cons (ih l hmem)

theorem searchLines_eq_none {α : Type} (check : List Char → Option α) :
    ∀ L : List (List Char), (∀ l ∈ L, check l = none) → searchLines check L = none := by
  intro L
  induction L with
  | nil => intro _; rfl
  | cons l ls ih =>
    intro h
    have hl : check l = none := h l (List.mem_cons_self l ls)
    simp only [searchLines, hl]
    exact ih fun x hx => h x (List.mem_cons_of_mem _ hx)

/-- When the key occurs nowhere in the text, the multiline field search of
`mtime_re` / `size_re` finds nothing (so `.group(1)` raises). -/
theorem fieldSearch_eq_none {α : Type} (key : List Char) (extract : List Char → Option α)
    (text : String) (h : ¬ key <:+: text.toList) :
    fieldSearch key extract text = none := by
  apply searchLines_eq_none
  intro line hline
  have hlineinf : line <:+: text.toList := splitLines_mem_occurs _ line hline
  unfold lineMatch
  by_cases hp : key.isPrefixOf (line.dropWhile fun c => c.isWhitespace) = true
  · exfalso
    have h1 : key <+: (line.dropWhile fun c => c.isWhitespace) := by
      rwa [← List.isPrefixOf_iff_prefix]
    have h2 : (line.dropWhile fun c => c.isWhitespace) <:+: line :=
      (List.dropWhile_suffix _).isInfix
    exact h (h1.isInfix.trans (h2.trans hlineinf))
  · simp [hp]

/-! ## Helper lemmas about the retry loop -/

/-- A failing attempt with iterations to spare: the loop recurses after one
more invocation and one more sleep. -/
theorem diracLoop_step_error (attempts : Nat → Except String String) (rwe : Bool)
    (i f : Nat) (e : String) (he : attempts i = Except.error e) (hf : f ≠ 0) :
    diracLoop attempts rwe i (f + 1) =
      ((diracLoop attempts rwe (i + 1) f).1,
       (diracLoop attempts rwe (i + 1) f).2.1 + 1,
       (diracLoop attempts rwe (i + 1) f).2.2 + 1) := by
  simp only [diracLoop, he, if_neg hf]

/-- A failing attempt in the last allowed iteration raises. -/
theorem diracLoop_last_error (attempts : Nat → Except String String) (rwe : Bool)
    (i : Nat) (e : String) (he : attempts i = Except.error e) :
    diracLoop attempts rwe i 1 =
      (some (if rwe then CmdOutcome.workflowError e else CmdOutcome.calledProcessError e), 1, 0) := by
  simp [diracLoop, he]

/-- A successful attempt returns its stdout immediately. -/
theorem diracLoop_step_ok (attempts : Nat → Except String String) (rwe : Bool)
    (i f : Nat) (s : String) (he : attempts i = Except.ok s) :
    diracLoop attempts rwe i (f + 1) = (some (CmdOutcome.ok s), 1, 0) := by
  simp [diracLoop, he]

/-- Every attempt fails: the loop runs all its iterations, sleeping between
consecutive attempts, and the last iteration raises with the last stderr. -/
theorem diracLoop_all_fail (attempts : Nat → Except String String) (rwe : Bool)
    (hfail : ∀ i, ∃ e, attempts i = Except.error e) :
    ∀ (f i : Nat), ∃ e, attempts (i + f) = Except.error e ∧
      diracLoop attempts rwe i (f + 1) =
        (some (if rwe then CmdOutcome.workflowError e else CmdOutcome.calledProcessError e),
          f + 1, f) := by
  intro f
  induction f with
  | zero =>
    intro i
    obtain ⟨e, he⟩ := hfail i
    exact ⟨e, by simpa using he, diracLoop_last_error attempts rwe i e he⟩
  | succ f ih =>
    intro i
    obtain ⟨e0, he0⟩ := hfail i
    obtain ⟨e, he, hrun⟩ := ih (i + 1)
    refine ⟨e, ?_, ?_⟩
    · rwa [show i + (f + 1) = i + 1 + f by omega]
    · rw [diracLoop_step_error attempts rwe i (f + 1) e0 he0 (Nat.succ_ne_zero f), hrun]

/-- The first `j` attempts fail and attempt `j` succeeds: the loop returns
that attempt's stdout after `j + 1` invocations and `j` sleeps. -/
theorem diracLoop_success (attempts : Nat → Except String String) (rwe : Bool) (s : String) :
    ∀ (j i fuel : Nat), j < fuel →
      (∀ t, t < j → ∃ e, attempts (i + t) = Except.error e) →
      attempts (i + j) = Except.ok s →
      diracLoop attempts rwe i fuel = (some (CmdOutcome.ok s), j + 1, j) := by
  intro j
  induction j with
  | zero =>
    intro i fuel hlt _ hok
    obtain ⟨f, rfl⟩ : ∃ f, fuel = f + 1 := ⟨fuel - 1, by omega⟩
    have hok0 : attempts i = Except.ok s := by simpa using hok
    exact diracLoop_step_ok attempts rwe i f s hok0
  | succ j ih =>
    intro i fuel hlt hprev hok
    obtain ⟨f, rfl⟩ : ∃ f, fuel = f + 1 := ⟨fuel - 1, by omega⟩
    obtain ⟨e0, he0⟩ := hprev 0 (Nat.succ_pos j)
    have he0i : attempts i = Except.error e0 := by simpa using he0
    have hf : f ≠ 0 := by omega
    have hrec := ih (i + 1) f (by omega)
      (fun t ht => by
        obtain ⟨e, he⟩ := hprev (t + 1) (by omega)
        exact ⟨e, by rwa [show i + 1 + t = i + (t + 1) by omega]⟩)
      (by rwa [show i + 1 + j = i + (j + 1) by omega])
    rw [diracLoop_step_error attempts rwe i f e0 he0i hf, hrec]

end DiracSE

namespace DiracSE

/-! ## Claim theorems -/

/-- C2: for every retry count R ≥ 0, a command whose every attempt exits
non-zero is invoked exactly R + 1 times, with a one-second sleep between
consecutive attempts (R seconds slept in total), before a workflow error
carrying the last stderr is raised; and a command whose attempt at index j
(the (j+1)-st invocation, j ≤ R) exits zero after j failing attempts is
invoked exactly j + 1 times and returns that attempt's decoded stdout. -/
theorem dirac_retry_invocations (attempts : Nat → Except String String) (R j : Nat) (s : String) :
    ((∀ i, ∃ e, attempts i = Except.error e) →
      ∃ e, diracRun attempts true (R : Int) =
        (some (CmdOutcome.workflowError e), R + 1, R)) ∧
    (j ≤ R → (∀ t, t < j → ∃ e, attempts t = Except.error e) →
      attempts j = Except.ok s →
      diracRun attempts true (R : Int) = (some (CmdOutcome.ok s), j + 1, j)) := by
  have hfuel : ((R : Int) + 1).toNat = R + 1 := by omega
  constructor
  · intro hfail
    obtain ⟨e, _, hrun⟩ := diracLoop_all_fail attempts true hfail R 0
    refine ⟨e, ?_⟩
    unfold diracRun
    rw [hfuel, hrun]
    simp
  · intro hjR hprev hok
    unfold diracRun
    rw [hfuel]
    exact diracLoop_success attempts true s j 0 (R + 1) (by omega)
      (fun t ht => by simpa using hprev t ht) (by simpa using hok)

/-- C2 witness: with retry 2, a command failing every attempt is invoked
three times with two sleeps and raises with the last stderr; a command
failing once and then succeeding is invoked twice with one sleep and
returns the second attempt's stdout. -/
theorem dirac_retry_invocations_witness :
    (∃ e, diracRun (fun _ => Except.error "boom") true 2 =
      (some (CmdOutcome.workflowError e), 3, 2)) ∧
    diracRun (fun i => if i < 1 then Except.error "x" else Except.ok "out") true 2 =
      (some (CmdOutcome.ok "out"), 2, 1) := by
  constructor
  · exact (dirac_retry_invocations (fun _ => Except.error "boom") 2 0 "").1
      (fun i => ⟨"boom", rfl⟩)
  · refine (dirac_retry_invocations
      (fun i => if i < 1 then Except.error "x" else Except.ok "out") 2 1 "out").2
      (by omega) ?_ (by simp)
    intro t ht
    exact ⟨"x", by simp [Nat.lt_one_iff.mp ht]⟩

/-- C10: a negative effective retry count makes the `for i in range(retry + 1)`
loop body run zero times, so `_dirac` invokes no external command, sleeps
never, raises nothing, and falls through returning `None`. -/
theorem dirac_negative_retry (attempts : Nat → Except String String) (rwe : Bool)
    (retry : Int) (h : retry < 0) :
    diracRun attempts rwe retry = (none, 0, 0) := by
  unfold diracRun
  rw [show (retry + 1).toNat = 0 by omega]
  rfl

/-- C10 witness: retry −1 yields `None` with zero invocations even though
an attempt, had it run, would have succeeded. -/
theorem dirac_negative_retry_witness :
    diracRun (fun _ => Except.ok "stdout") true (-1) = (none, 0, 0) :=
  dirac_negative_retry (fun _ => Except.ok "stdout") true (-1) (by norm_num)

/-- C3: `exists()` returns false exactly when the metadata text contains
the literal substring "Failed :", and returns true otherwise. -/
theorem exists_false_iff_failed (result : String) :
    (existsResult result = false ↔ hasSub "Failed :" result) ∧
    (existsResult result = true ↔ ¬ hasSub "Failed :" result) := by
  constructor
  · rw [show (existsResult result = false) ↔ (containsSub "Failed :" result = true) by
      simp [existsResult]]
    exact containsSub_iff _ _
  · rw [show (existsResult result = true) ↔ (containsSub "Failed :" result = false) by
      simp [existsResult]]
    exact containsSub_false_iff _ _

/-- C3 witness: the spec's end-to-end scenario, plus a success text. -/
theorem exists_false_iff_failed_witness :
    existsResult "Failed : no such file\n" = false ∧
    existsResult "Successful : f\n" = true :=
  ⟨(exists_false_iff_failed "Failed : no such file\n").1.mpr (by decide),
   (exists_false_iff_failed "Successful : f\n").2.mpr (by decide)⟩

/-- C9: the `list` property raises `NotImplementedError` for every adapter
state and never returns a value. -/
theorem list_not_implemented (o : RemoteObjectState) :
    listFiles o = PyResult.notImplementedError ∧ (listFiles o).isOk = false :=
  ⟨rfl, rfl⟩

/-- C7: `upload()` raises an assertion failure when the output lacks the
literal substring "Successful : "; otherwise it returns normally, and the
returned boolean is always `true`. -/
theorem upload_assert_or_true (output : String) :
    (¬ hasSub "Successful : " output → upload output = UploadResult.assertionError) ∧
    (hasSub "Successful : " output → upload output = UploadResult.ok true) ∧
    (∀ b : Bool, upload output = UploadResult.ok b → b = true) := by
  unfold upload
  cases h : containsSub "Successful : " output
  · have hn := (containsSub_false_iff "Successful : " output).mp h
    simp [hn]
  · have hy := (containsSub_iff "Successful : " output).mp h
    simp [hy]

/-- C7 witness: a success text returns true; a text without the marker hits
the assertion. -/
theorem upload_assert_or_true_witness :
    upload "Successful : added the file" = UploadResult.ok true ∧
    upload "nothing happened" = UploadResult.assertionError :=
  ⟨(upload_assert_or_true "Successful : added the file").2.1 (by decide),
   (upload_assert_or_true "nothing happened").1 (by decide)⟩

/-- C5: evaluation of the command-line construction of `_dirac` at the
configuration the module-level environment check explicitly allows
(no `lb-dirac` wrapper, bare dirac tools on the path, so
`DIRAC_ENV_WRAPPER = ""`): the empty wrapper string is still prepended, so
the command line starts with an empty element, not with the tool name. -/
theorem buildCmd_empty_wrapper :
    buildCmd "" "dirac-dms-lfn-metadata" ["/lhcb/user/r/file"] =
      ["", "dirac-dms-lfn-metadata", "/lhcb/user/r/file"] ∧
    (buildCmd "" "dirac-dms-lfn-metadata" ["/lhcb/user/r/file"]).head? = some "" :=
  ⟨rfl, rfl⟩

/-- C8 counterexample: `host()` does not return a provider-configured
endpoint; it is the class constant "CERN-USER" for every adapter state, so
no adapter state can make it return a different endpoint name. -/
theorem host_counterexample :
    (∃ o : RemoteObjectState, host o = "RAL-USER") = False := by
  apply eq_false
  rintro ⟨o, ho⟩
  rw [show host o = "CERN-USER" from rfl] at ho
  exact absurd ho (by decide)

/-- C8 amended: the default storage-endpoint name is the adapter class
constant "CERN-USER" (`RemoteObject.defaultSE`), not configuration owned by
the provider; `host()` returns that constant for every adapter instance
whatever its provider holds, and `upload()` passes the same constant as the
storage-element argument of `dirac-dms-add-file`. -/
theorem host_and_upload_use_class_constant (o : RemoteObjectState) (lfn source : String) :
    host o = "CERN-USER" ∧ host o = defaultSE ∧
    uploadCmdArgs lfn source = [lfn, source, "CERN-USER"] :=
  ⟨rfl, rfl, rfl⟩

/-- C1 counterexample: with every success condition except
"Downloading file to" met, `download()` hits the assertion (an error)
instead of returning the empty result the claim promises. -/
theorem download_counterexample :
    download "mylfn" "/tmp/f" "Successful : mylfn : /tmp/f" true =
      DownloadResult.assertionError ∧
    (download "mylfn" "/tmp/f" "Successful : mylfn : /tmp/f" true =
      DownloadResult.noneResult) = False :=
  ⟨by decide, eq_false (by decide)⟩

/-- C1 amended: `download()` returns the local path exactly when the output
contains "Downloading file to", lacks "Failed :", contains "Successful :"
and the verbatim "<lfn> : <local-path>" substring, and the local path
exists on disk; when "Downloading file to" is absent it raises an assertion
failure; otherwise "Failed :" raises a workflow error; and any other
missing success condition yields an empty result, not an error. -/
theorem download_success_conditions (lfn path output : String) (pathExists : Bool) :
    (download lfn path output pathExists = DownloadResult.path path ↔
      (hasSub "Downloading file to" output ∧ ¬ hasSub "Failed :" output ∧
        hasSub "Successful :" output ∧ hasSub (lfn ++ " : " ++ path) output ∧
        pathExists = true)) ∧
    (¬ hasSub "Downloading file to" output →
      download lfn path output pathExists = DownloadResult.assertionError) ∧
    (hasSub "Downloading file to" output → hasSub "Failed :" output →
      download lfn path output pathExists = DownloadResult.workflowError) ∧
    (hasSub "Downloading file to" output → ¬ hasSub "Failed :" output →
      ¬ (hasSub "Successful :" output ∧ hasSub (lfn ++ " : " ++ path) output ∧
          pathExists = true) →
      download lfn path output pathExists = DownloadResult.noneResult) ∧
    (∀ q, download lfn path output pathExists = DownloadResult.path q → q = path) := by
  have hD := containsSub_iff "Downloading file to" output
  have hF := containsSub_iff "Failed :" output
  have hS := containsSub_iff "Successful :" output
  have hL := containsSub_iff (lfn ++ " : " ++ path) output
  unfold download
  cases hd : containsSub "Downloading file to" output <;>
    cases hf : containsSub "Failed :" output <;>
      cases hs : containsSub "Successful :" output <;>
        cases hl : containsSub (lfn ++ " : " ++ path) output <;>
          cases pathExists <;>
            simp_all

/-- C1 amended, witness: a fully successful fetch returns the local path. -/
theorem download_success_conditions_witness :
    download "mylfn" "/tmp/f" "Downloading file to /tmp Successful : mylfn : /tmp/f" true =
      DownloadResult.path "/tmp/f" :=
  (download_success_conditions "mylfn" "/tmp/f"
      "Downloading file to /tmp Successful : mylfn : /tmp/f" true).1.mpr
    ⟨by decide, by decide, by decide, by decide, rfl⟩

/-- C4 counterexample: Python `str.replace` removes every occurrence of
"LFN://", so a later occurrence of the prefix text is not preserved. -/
theorem lfn_counterexample :
    lfnOf "LFN://a/LFN://b" = "a/b" ∧
    (lfnOf "LFN://a/LFN://b" = "a/LFN://b") = False :=
  ⟨by decide, eq_false (by decide)⟩

/-- List-level core of the amended C4: replacing "LFN://" by "" in
"LFN://" ++ rest strips exactly the leading prefix when the prefix text
occurs nowhere in rest. -/
theorem replaceChars_strip_lfn (rest : List Char)
    (h : ¬ ('L' :: 'F' :: 'N' :: ':' :: '/' :: '/' :: [] <:+: rest)) :
    replaceChars ('L' :: 'F' :: 'N' :: ':' :: '/' :: '/' :: []) []
        (('L' :: 'F' :: 'N' :: ':' :: '/' :: '/' :: []) ++ rest).length
        (('L' :: 'F' :: 'N' :: ':' :: '/' :: '/' :: []) ++ rest) = rest := by
  have hlen : (('L' :: 'F' :: 'N' :: ':' :: '/' :: '/' :: []) ++ rest).length =
      (rest.length + 5) + 1 := by
    simp only [List.length_append, List.length_cons, List.length_nil]
    omega
  rw [hlen,
    replaceChars_leading_match 'L' ('F' :: 'N' :: ':' :: '/' :: '/' :: []) [] rest
      (rest.length + 5),
    replaceChars_no_occurrence _ _ _ rest h, List.nil_append]

/-- C4 amended: `_lfn` removes every occurrence of the scheme text
"LFN://"; for any remote path beginning with the prefix whose remainder
contains no further occurrence of it, exactly the leading prefix is
stripped and the rest of the path is preserved unchanged. -/
theorem lfn_strips_leading_prefix_when_unique (rest : String)
    (h : ¬ hasSub "LFN://" rest) :
    lfnOf ("LFN://" ++ rest) = rest := by
  unfold lfnOf pyReplace
  have hdata : ("LFN://" ++ rest).toList =
      ('L' :: 'F' :: 'N' :: ':' :: '/' :: '/' :: []) ++ rest.toList := rfl
  have hkey : "LFN://".toList = ('L' :: 'F' :: 'N' :: ':' :: '/' :: '/' :: []) := rfl
  have hrep : "".toList = ([] : List Char) := rfl
  rw [hdata, hkey, hrep, replaceChars_strip_lfn rest.toList h]
  cases rest
  rfl

/-- C4 amended, witness: an ordinary grid path keeps everything after the
scheme prefix. -/
theorem lfn_strips_leading_prefix_when_unique_witness :
    lfnOf ("LFN://" ++ "/lhcb/user/r/file.root") = "/lhcb/user/r/file.root" :=
  lfn_strips_leading_prefix_when_unique "/lhcb/user/r/file.root" (by decide)

/-- C6: on the spec's metadata text, `mtime()` returns the epoch timestamp
of 2022-01-15T08:30:00 under the host UTC offset `tz` (that is,
1642235400 − tz seconds) and `size()` returns 123; on any text in which the
respective field text occurs nowhere, the regex search fails and
`.group(1)` raises an uncaught pattern-match error (`AttributeError`),
modelled by `patternMatchError`, distinct from any workflow error. -/
theorem mtime_size_metadata (tz : Int) (text : String) :
    mtimeModel tz "  ModificationDate : 2022-01-15 08:30:00\n  Size : 123\n" =
      PyResult.ok (1642235400 - tz) ∧
    sizeModel "  ModificationDate : 2022-01-15 08:30:00\n  Size : 123\n" =
      PyResult.ok 123 ∧
    (¬ hasSub "ModificationDate : " text → mtimeModel tz text = PyResult.patternMatchError) ∧
    (¬ hasSub "Size : " text → sizeModel text = PyResult.patternMatchError) := by
  refine ⟨?_, by decide, ?_, ?_⟩
  · have hts : epochUTC (CivilTime.mk 2022 1 15 8 30 0) = 1642235400 := by decide
    rw [← hts]
    rfl
  · intro h
    unfold mtimeModel
    rw [fieldSearch_eq_none _ _ text h]
  · intro h
    unfold sizeModel
    rw [fieldSearch_eq_none _ _ text h]

/-- C6 witness: the scenario instantiated at UTC offset 3600, and texts
lacking the fields. -/
theorem mtime_size_metadata_witness :
    mtimeModel 3600 "  ModificationDate : 2022-01-15 08:30:00\n  Size : 123\n" =
      PyResult.ok (1642235400 - 3600) ∧
    mtimeModel 0 "no fields here" = PyResult.patternMatchError ∧
    sizeModel "no fields here" = PyResult.patternMatchError :=
  ⟨(mtime_size_metadata 3600 "no fields here").1,
   (mtime_size_metadata 0 "no fields here").2.2.1 (by decide),
   (mtime_size_metadata 0 "no fields here").2.2.2 (by decide)⟩

end DiracSE
